import Mathlib

/-!
Verification of the Treiber stack in `src/main.rs`.

The source is a lock-free stack: a `Node<T>` holds `data` and a raw `next`
pointer, and `LockFreeStack<T>` holds a single atomic `head` pointer.  The
spec's functional claims are all about single-threaded (quiescent) use, where
every `compare_exchange_weak` succeeds on its first attempt because no other
thread moves `head` between the load and the CAS.  Under that execution model
the chain of nodes reachable from `head` is a finite singly linked list, and
we embed the stack state as that chain: a `List T`, most recently pushed
element first (the element at the head of the Lean list is the node `head`
points to; `[]` is the null / empty-indicator head).

Each Rust method is translated to a Lean function on this state:
* `new`  : `head: AtomicPtr::new(ptr::null_mut())` — the empty chain.
* `push` : allocate a node with the given `data`, set its `next` to the
  current head, CAS `head` to the new node — prepend to the chain.
* `pop`  : load `head`; if null return `None`; otherwise read the node's
  `next`, CAS `head` to it, and return `Some(node.data)` — split the chain
  into its first element and the rest.
* `len`  : walk from `head` with a counter, `count += 1` per node, following
  `next` until null — structural recursion over the chain.  (The `u64`
  counter cannot overflow for any realizable chain, so it is a `Nat`.)

For the temporal claims we also embed sequences of operations (`Op`) applied
to a stack state, with counters for pushes performed and for pops that
returned a value.
-/

namespace LockFreeStack

/-- `LockFreeStack::new`: a stack whose head is the null pointer, i.e. the
empty chain. -/
def new (T : Type) : List T := []

/-- `LockFreeStack::push`: a new node owning `data` is allocated, its `next`
is set to the current head, and `head` is CAS'd to the new node.  On the
chain this prepends `data`. -/
def push {T : Type} (s : List T) (data : T) : List T := data :: s

/-- `LockFreeStack::pop`: load `head`; if it is null return `None` (stack
unchanged); otherwise read the head node's `next`, CAS `head` to it, take
ownership of the unlinked node and return `Some` of its `data`.  Returns the
popped value (if any) together with the resulting stack state. -/
def pop {T : Type} : List T → Option T × List T
  | [] => (none, [])
  | x :: rest => (some x, rest)

/-- `LockFreeStack::len`: walk from `head`, incrementing a counter for each
node and following `next`, until the null pointer is reached. -/
def len {T : Type} : List T → Nat
  | [] => 0
  | _ :: rest => 1 + len rest

/-- Popping a value strictly shrinks the chain (the popped node is unlinked
and destroyed). -/
theorem pop_some_length {T : Type} {s s' : List T} {v : T}
    (h : pop s = (some v, s')) : s'.length < s.length := by
  cases s with
  | nil => simp [pop] at h
  | cons x rest =>
    simp [pop] at h
    simp [h.2]

/-- Fully draining the stack: call `pop` repeatedly, collecting the returned
values in order, until it reports empty. -/
def drain {T : Type} (s : List T) : List T :=
  match h : pop s with
  | (none, _) => []
  | (some v, s') => v :: drain s'
termination_by s.length
decreasing_by exact pop_some_length h

/-- Pushing a list of values one after the other (first element of `vs` is
pushed first). -/
def pushAll {T : Type} (s : List T) (vs : List T) : List T :=
  vs.foldl push s

/-- One client operation on the stack. -/
inductive Op (T : Type) where
  | push (v : T)
  | pop
deriving DecidableEq

/-- Run a sequence of operations on a stack state, returning the final
state. -/
def run {T : Type} : List T → List (Op T) → List T
  | s, [] => s
  | s, Op.push v :: rest => run (push s v) rest
  | s, Op.pop :: rest => run (pop s).2 rest

/-- Number of push operations in a sequence. -/
def pushCount {T : Type} : List (Op T) → Nat
  | [] => 0
  | Op.push _ :: rest => 1 + pushCount rest
  | Op.pop :: rest => pushCount rest

/-- Number of pop operations that return a value (`Some`) when the sequence
is run from state `s`. -/
def succPops {T : Type} : List T → List (Op T) → Nat
  | _, [] => 0
  | s, Op.push v :: rest => succPops (push s v) rest
  | s, Op.pop :: rest =>
      (if (pop s).1.isSome then 1 else 0) + succPops (pop s).2 rest

/-- Pushing the values of `vs` onto a stack prepends them in reverse order. -/
theorem pushAll_eq_reverse_append {T : Type} (vs : List T) (s : List T) :
    pushAll s vs = vs.reverse ++ s := by
  induction vs generalizing s with
  | nil => simp [pushAll]
  | cons v rest ih =>
    simpa [pushAll, List.foldl_cons, push] using ih (v :: s)

/-- Draining returns exactly the chain, top first. -/
theorem drain_eq {T : Type} (s : List T) : drain s = s := by
  induction s with
  | nil =>
    rw [drain]
    simp [pop]
  | cons x rest ih =>
    rw [drain]
    simp [pop]
    exact ih

/-- The traversal count of `len` is the number of elements in the chain. -/
theorem len_eq_length {T : Type} (s : List T) : len s = s.length := by
  induction s with
  | nil => rfl
  | cons x rest ih => simp [len, ih, Nat.add_comm]

/-- Conservation: along any run, the pushes performed plus the initial size
equal the value-returning pops plus the final size. -/
theorem succPops_add_run_length {T : Type} (ops : List (Op T)) (s : List T) :
    succPops s ops + (run s ops).length = s.length + pushCount ops := by
  induction ops generalizing s with
  | nil => simp [succPops, run, pushCount]
  | cons op rest ih =>
    cases op with
    | push v =>
      simp [succPops, run, pushCount, push]
      have := ih (push s v)
      simp [push] at this
      omega
    | pop =>
      cases s with
      | nil =>
        simp [succPops, run, pushCount, pop]
        simpa using ih []
      | cons x tail =>
        simp [succPops, run, pushCount, pop]
        have := ih tail
        omega

/-- Claim C1 — LIFO order under single-threaded use: for every stack, pushing
values `v1`, `v2`, `v3` in that order and then popping three times yields
`v3`, `v2`, `v1` in that order. -/
theorem push3_pop3_lifo {T : Type} (s : List T) (v1 v2 v3 : T) :
    (pop (push (push (push s v1) v2) v3)).1 = some v3 ∧
    (pop (pop (push (push (push s v1) v2) v3)).2).1 = some v2 ∧
    (pop (pop (pop (push (push (push s v1) v2) v3)).2).2).1 = some v1 := by
  simp [push, pop]

/-- Claim C2 — empty-pop correctness: `pop` returns `none` if and only if the
stack is empty at the decisive check, and in particular `pop` on a freshly
constructed stack returns `none`, because `new()` produces the empty stack. -/
theorem pop_none_iff_empty (T : Type) :
    (∀ s : List T, (pop s).1 = none ↔ s = new T) ∧ (pop (new T)).1 = none := by
  refine ⟨fun s => ?_, rfl⟩
  cases s <;> simp [pop, new]

/-- Claim C3 — push succeeds and installs the new top: `push` is a total
function with no error outcome, and for every stack and value, an immediately
following `pop` returns that value. -/
theorem pop_after_push {T : Type} (s : List T) (v : T) :
    (pop (push s v)).1 = some v := rfl

/-- Claim C4 — mass conservation: pushing the distinct values of `vs` onto an
initially empty stack with no intervening pops makes `len` report their
number, and fully draining via `pop` returns each of those values exactly
once — the drained list is a duplicate-free permutation of `vs`. -/
theorem pushAll_len_drain {T : Type} (vs : List T) (hd : vs.Nodup) :
    len (pushAll (new T) vs) = vs.length ∧
    (drain (pushAll (new T) vs)).Perm vs ∧
    (drain (pushAll (new T) vs)).Nodup := by
  rw [len_eq_length, drain_eq, pushAll_eq_reverse_append]
  refine ⟨by simp [new], ?_, ?_⟩
  · simp [new]
  · simp [new, hd]

/-- Concrete application of `pushAll_len_drain` at the value list
`[1, 2, 3]`. -/
theorem pushAll_len_drain_witness :
    ([1, 2, 3] : List Nat).Nodup ∧
    (len (pushAll (new Nat) [1, 2, 3]) = ([1, 2, 3] : List Nat).length ∧
     (drain (pushAll (new Nat) [1, 2, 3])).Perm [1, 2, 3] ∧
     (drain (pushAll (new Nat) [1, 2, 3])).Nodup) :=
  ⟨by decide, pushAll_len_drain [1, 2, 3] (by decide)⟩

/-- Claim C5 — `len` walks the chain from the current head counting nodes and
returns exactly the number of elements logically present (the length of the
reachable chain), in quiescent single-threaded use. -/
theorem len_counts_elements {T : Type} (s : List T) : len s = s.length :=
  len_eq_length s

/-- Claim C6 — no over-pop: in every sequence of push and pop operations run
from the empty stack, the number of pops that returned a value never exceeds
the number of pushes performed. -/
theorem succPops_le_pushCount {T : Type} (ops : List (Op T)) :
    succPops (new T) ops ≤ pushCount ops := by
  have h := succPops_add_run_length ops (new T)
  simp only [new, List.length_nil, Nat.zero_add] at h
  simp only [new]
  omega

/-- Claim C7 — idempotent emptiness: once `len` reports 0, a subsequent
sequence of operations containing no pushes never makes `pop` return a value,
and the stack stays empty. -/
theorem pops_after_empty {T : Type} (s : List T) (hlen : len s = 0)
    (ops : List (Op T)) (hops : ∀ op ∈ ops, op = Op.pop) :
    succPops s ops = 0 ∧ run s ops = new T := by
  have hs : s = [] := by
    rw [len_eq_length] at hlen
    exact List.length_eq_zero.mp hlen
  subst hs
  induction ops with
  | nil => exact ⟨rfl, rfl⟩
  | cons op rest ih =>
    have hop : op = Op.pop := hops op (by simp)
    subst hop
    have ih2 := ih (fun op h => hops op (by simp [h]))
    simpa [succPops, run, pop, new] using ih2

/-- Concrete application of `pops_after_empty`: two pops after the stack is
observed empty. -/
theorem pops_after_empty_witness :
    len (new Nat) = 0 ∧
    (∀ op ∈ ([Op.pop, Op.pop] : List (Op Nat)), op = Op.pop) ∧
    (succPops (new Nat) [Op.pop, Op.pop] = 0 ∧
     run (new Nat) [Op.pop, Op.pop] = new Nat) :=
  ⟨rfl, by decide, pops_after_empty (new Nat) rfl [Op.pop, Op.pop] (by decide)⟩

/-- Claim C9 — atomicity of the empty case: `pop` on an empty stack returns
`none` and leaves the stack completely unchanged. -/
theorem pop_empty_unchanged {T : Type} (s : List T) (hlen : len s = 0) :
    pop s = (none, s) := by
  have hs : s = [] := by
    rw [len_eq_length] at hlen
    exact List.length_eq_zero.mp hlen
  subst hs
  rfl

/-- Concrete application of `pop_empty_unchanged` to the freshly constructed
stack. -/
theorem pop_empty_unchanged_witness :
    len (new Nat) = 0 ∧ pop (new Nat) = (none, new Nat) :=
  ⟨rfl, pop_empty_unchanged (new Nat) rfl⟩

/-- Claim C10 — push/pop round trip: for every stack state `s` and value `v`,
`pop` after `push v` returns `some v` and restores exactly the state `s`,
with all pre-existing elements unchanged and in the same order. -/
theorem push_pop_roundtrip {T : Type} (s : List T) (v : T) :
    pop (push s v) = (some v, s) := rfl

end LockFreeStack
